import Mathlib

/-!
Verification development for the compilation driver in
src/python/triton/compiler/compiler.py.

The Python module is shallowly embedded: pure helpers become Lean functions,
the cache-manager side effects become explicit state passing on a cache-state
record, exceptions become Except values, and calls that the driver performs
are recorded in an explicit event trace so that "stage ran", "artifact
written", "group committed" and "device queried" are observable facts of the
model.
-/

namespace Triton

/-! ## Association-list primitives

Python dictionaries are modelled as association lists with an overriding
insert (later writes win, as in dict assignment) and a key lookup. -/

/-- Overriding insert: the Python semantics of d[k] = v for a dict modelled
as an association list (the stored value for an existing key is replaced). -/
def insertEntry {α : Type} : List (String × α) → String → α → List (String × α)
  | [], k, v => [(k, v)]
  | kv :: rest, k, v =>
    if kv.1 = k then insertEntry rest k v else kv :: insertEntry rest k v

/-- Key lookup in an association list, the model of Python d.get(k). -/
def lookupAssoc {α : Type} : List (String × α) → String → Option α
  | [], _ => none
  | kv :: rest, k => if kv.1 = k then some kv.2 else lookupAssoc rest k

/-- Folding a list of key/value pairs into a dict, the model of Python
dict update or double-star merging. -/
def insertAll {α : Type} (m : List (String × α)) (xs : List (String × α)) :
    List (String × α) :=
  xs.foldl (fun acc kv => insertEntry acc kv.1 kv.2) m

theorem lookupAssoc_insertEntry_self {α : Type} (l : List (String × α))
    (k : String) (v : α) : lookupAssoc (insertEntry l k v) k = some v := by
  induction l with
  | nil => simp [insertEntry, lookupAssoc]
  | cons kv rest ih =>
    by_cases h : kv.1 = k
    · simpa [insertEntry, h] using ih
    · simp [insertEntry, lookupAssoc, h, ih]

theorem lookupAssoc_insertEntry_ne {α : Type} (l : List (String × α))
    (k k' : String) (v : α) (h : k' ≠ k) :
    lookupAssoc (insertEntry l k v) k' = lookupAssoc l k' := by
  induction l with
  | nil => simp [insertEntry, lookupAssoc, Ne.symm h]
  | cons kv rest ih =>
    by_cases hk : kv.1 = k
    · have hne : ¬kv.1 = k' := by rw [hk]; exact Ne.symm h
      simp [insertEntry, lookupAssoc, hk, hne, ih, Ne.symm h]
    · by_cases hk' : kv.1 = k'
      · simp [insertEntry, lookupAssoc, hk, hk', h]
      · simp [insertEntry, lookupAssoc, hk, hk', ih]

theorem lookupAssoc_insertAll_not_mem {α : Type} (xs : List (String × α))
    (m : List (String × α)) (key : String) (h : key ∉ xs.map Prod.fst) :
    lookupAssoc (insertAll m xs) key = lookupAssoc m key := by
  induction xs generalizing m with
  | nil => rfl
  | cons kv rest ih =>
    simp only [List.map_cons, List.mem_cons] at h
    push_neg at h
    show lookupAssoc (insertAll (insertEntry m kv.1 kv.2) rest) key = _
    rw [ih _ (by exact h.2), lookupAssoc_insertEntry_ne _ _ _ _ h.1]

/-! ## The num-warps attribute scanner

The Python helper _get_num_warps_from_ir_str (compiler.py lines 83-100) uses
re.findall with the pattern <quote>triton_gpu.num-warps<quote>\s?=\s?(\d+)\s?:
(and the analogous num-warp-groups-per-cta pattern).  The pattern is embedded
as written: the only metacharacters occurring in it are the dot (any character
except newline), \s? (one optional whitespace) and (\d+) (a captured nonempty
greedy digit run).  Because a digit is neither whitespace nor a colon, the
backtracking search of the Python engine is equivalent to the deterministic
matcher below. -/

/-- Python \s on ASCII text: space, tab, newline, carriage return, vertical
tab and form feed. -/
def pySpace (c : Char) : Bool :=
  c == ' ' || c == '\t' || c == '\n' || c == '\r' || c == '\x0b' || c == '\x0c'

/-- One token of the literal part of the attribute pattern: a literal
character, or the regex dot which matches anything but a newline. -/
inductive Tok where
  | lit (c : Char)
  | anyNotNl
deriving DecidableEq

def tokMatches : Tok → Char → Bool
  | .lit c, x => x == c
  | .anyNotNl, x => x != '\n'

/-- Translate the literal prefix of the regex (where the dot is the only
metacharacter) into tokens. -/
def regexToks (pat : String) : List Tok :=
  pat.data.map (fun c => if c = '.' then Tok.anyNotNl else Tok.lit c)

/-- Match a token list against a prefix of the input, returning the rest. -/
def matchToks : List Tok → List Char → Option (List Char)
  | [], s => some s
  | _ :: _, [] => none
  | t :: ts, c :: s => if tokMatches t c then matchToks ts s else none

/-- Deterministic form of \s?c: one optional whitespace character followed by
the literal c (backtracking cannot help because c is never whitespace here). -/
def matchOptSpaceThenChar (c : Char) : List Char → Option (List Char)
  | [] => none
  | x :: rest =>
    if pySpace x then
      match rest with
      | [] => none
      | y :: rest' => if y == c then some rest' else none
    else if x == c then some rest else none

/-- Value of a digit run, as int() computes it on the captured group. -/
def digitsToNatAux (acc : Nat) : List Char → Nat
  | [] => acc
  | c :: rest => digitsToNatAux (acc * 10 + (c.toNat - '0'.toNat)) rest

/-- Try to match the full attribute pattern at the head of the input:
literal tokens, \s?, =, \s?, captured digits, \s?, colon.  Returns the
captured number and the input remaining after the match. -/
def tryMatchAttr (toks : List Tok) (s : List Char) : Option (Nat × List Char) :=
  match matchToks toks s with
  | none => none
  | some s1 =>
    match matchOptSpaceThenChar '=' s1 with
    | none => none
    | some s2 =>
      let s2' := match s2 with
        | x :: rest => if pySpace x then rest else s2
        | [] => s2
      let ds := s2'.takeWhile Char.isDigit
      let s3 := s2'.dropWhile Char.isDigit
      if ds.isEmpty then none
      else
        match matchOptSpaceThenChar ':' s3 with
        | none => none
        | some s4 => some (digitsToNatAux 0 ds, s4)

/-- Fueled scan implementing re.findall: at each position try the pattern;
on a match record the capture and resume after the matched span, otherwise
advance one character.  Every successful match consumes at least one
character, so fuel equal to the input length suffices. -/
def scanAttrAux (toks : List Tok) : Nat → List Char → List Nat
  | 0, _ => []
  | _, [] => []
  | fuel + 1, s@(_ :: rest) =>
    match tryMatchAttr toks s with
    | some (v, s') => v :: scanAttrAux toks fuel s'
    | none => scanAttrAux toks fuel rest

/-- Model of re.findall(pattern, src) for the attribute patterns, returning
the captured digit groups as numbers. -/
def reFindallAttr (pat : String) (s : String) : List Nat :=
  scanAttrAux (regexToks pat) (s.data.length + 1) s.data

def numWarpsAttrPattern : String := "\"triton_gpu.num-warps\""

def numWarpGroupsAttrPattern : String := "\"triton_gpu.num-warp-groups-per-cta\""

/-- Matches of the num-warps attribute pattern in an IR string. -/
def reFindallNumWarps (s : String) : List Nat :=
  reFindallAttr numWarpsAttrPattern s

/-- Matches of the num-warp-groups-per-cta attribute pattern. -/
def reFindallNumWarpGroups (s : String) : List Nat :=
  reFindallAttr numWarpGroupsAttrPattern s

/-- Failure modes of _get_num_warps_from_ir_str: the two assert statements of
compiler.py lines 88 and 95, surfaced per the spec as MalformedIRError. -/
inductive MalformedIRError where
  | numWarpsCount
  | numWarpGroupsCount
deriving DecidableEq

/-- Model of _get_num_warps_from_ir_str (compiler.py lines 83-100): exactly
one num-warps match is required; at most one num-warp-groups-per-cta match is
allowed and, when present, multiplies the warp count. -/
def _get_num_warps_from_ir_str (src : String) : Except MalformedIRError Nat :=
  let num_warps_matches := reFindallNumWarps src
  if num_warps_matches.length = 1 then
    let num_warps := num_warps_matches.headD 0
    let num_warp_groups_matches := reFindallNumWarpGroups src
    if num_warp_groups_matches.length = 0 ∨ num_warp_groups_matches.length = 1 then
      if num_warp_groups_matches.isEmpty then Except.ok num_warps
      else Except.ok (num_warps * num_warp_groups_matches.headD 0)
    else Except.error MalformedIRError.numWarpGroupsCount
  else Except.error MalformedIRError.numWarpsCount

/-! ## Paths, options and the source descriptor -/

/-- Split a character list at every slash (structural helper). -/
def splitOnSlashAux : List Char → List Char × List (List Char)
  | [] => ([], [])
  | c :: rest =>
    let pr := splitOnSlashAux rest
    if c = '/' then ([], pr.1 :: pr.2) else (c :: pr.1, pr.2)

def splitOnSlash (cs : List Char) : List (List Char) :=
  (splitOnSlashAux cs).1 :: (splitOnSlashAux cs).2

/-- Final component of a path, the model of pathlib Path(p).name
(trailing and repeated slashes are dropped). -/
def lastComponent (p : String) : String :=
  String.mk (((splitOnSlash p.data).filter (fun s => !s.isEmpty)).getLastD [])

/-- Index of the rightmost dot of a character list, if any. -/
def lastDotIdx : List Char → Option Nat
  | [] => none
  | c :: rest =>
    match lastDotIdx rest with
    | some i => some (i + 1)
    | none => if c = '.' then some 0 else none

/-- Model of Path(p).suffix[1:] as used in IRSource.__init__ (compiler.py
line 134): the text after the last dot of the final path component, empty
when the dot is leading, trailing or absent. -/
def pathSuffix (p : String) : String :=
  let name := lastComponent p
  match lastDotIdx name.data with
  | none => ""
  | some i =>
    if 0 < i ∧ i + 1 < name.data.length then String.mk (name.data.drop (i + 1))
    else ""

/-- Digest of the external hashlib library.  The driver only relies on the
digest being a pure deterministic function of its input, so the model keeps
the fingerprint itself. -/
def md5Hex (s : String) : String := s

/-- The backend-declared options record (CUDABackend.parse_options is an
external collaborator): the num-warps field, which IRSource.update_options
may overwrite, is explicit; every other declared field is kept as an opaque
field-name/value list. -/
structure CompilationOptions where
  num_warps : Nat
  fields : List (String × String)
deriving DecidableEq

/-- The options object dictionary options.__dict__, in declaration order. -/
def optionEntries (o : CompilationOptions) : List (String × String) :=
  ("num_warps", toString o.num_warps) :: o.fields

/-- Deterministic options hash, a function of the full field set. -/
def CompilationOptions.hashStr (o : CompilationOptions) : String :=
  md5Hex (toString (optionEntries o))

/-- Intermediate modules produced by the stages are opaque tokens. -/
abbrev Module := Nat

/-- The two source descriptors of compiler.py: ASTSource (a structured
function, native format ttir, content hash from the function cache key) and
IRSource (a pre-lowered IR text file; its display name is extracted from the
prototype by the external regex, so it is carried as a field).  The initial
module that make_ir would produce through the external frontend or MLIR
parser is carried as an opaque payload. -/
inductive Source where
  | ast (name : String) (fnHash : String) (irModule : Module)
  | ir (path : String) (text : String) (name : String) (irModule : Module)
deriving DecidableEq

/-- Native format tag: ASTSource.__init__ sets ext to ttir (line 107);
IRSource.__init__ takes the path suffix (line 134). -/
def Source.ext : Source → String
  | .ast .. => "ttir"
  | .ir path .. => pathSuffix path

def Source.name : Source → String
  | .ast n _ _ => n
  | .ir _ _ n _ => n

/-- Content hash: ASTSource.hash digests the function key, config, signature
and constants (abstracted into the carried fingerprint); IRSource.hash
digests the source text (line 143). -/
def Source.hashStr : Source → String
  | .ast _ h _ => h
  | .ir _ text _ _ => md5Hex text

/-- Model of make_ir: the initial module (produced externally). -/
def Source.make_ir : Source → Module
  | .ast _ _ m => m
  | .ir _ _ _ m => m

/-- Model of update_options: ASTSource.update_options is pass (lines
125-126); IRSource.update_options overwrites options.num_warps from the IR
text when and only when the extension is ttgir (lines 151-153). -/
def Source.update_options :
    Source → CompilationOptions → Except MalformedIRError CompilationOptions
  | .ast .., options => Except.ok options
  | .ir path text _ _, options =>
    if pathSuffix path = "ttgir" then
      match _get_num_warps_from_ir_str text with
      | .ok n => Except.ok { options with num_warps := n }
      | .error e => Except.error e
    else Except.ok options

/-! ## Cache key composition

Line 170 of compiler.py composes the run key from the source, backend and
options hashes plus frozenset(sorted(get_env_vars().items())).  Sorting
before building the frozenset makes the rendering canonical: the model sorts
the pairs with the tuple order of Python sorted and deduplicates (a frozenset
is a set), then renders the canonical sequence. -/

/-- Python tuple comparison on (key, value) string pairs. -/
def pairLe (a b : String × String) : Prop :=
  a.1 < b.1 ∨ (a.1 = b.1 ∧ a.2 ≤ b.2)

instance : DecidableRel pairLe := fun a b => by
  unfold pairLe; exact inferInstance

instance : IsTotal (String × String) pairLe := by
  refine ⟨fun a b => ?_⟩
  rcases lt_trichotomy a.1 b.1 with h | h | h
  · exact Or.inl (Or.inl h)
  · rcases le_total a.2 b.2 with h2 | h2
    · exact Or.inl (Or.inr ⟨h, h2⟩)
    · exact Or.inr (Or.inr ⟨h.symm, h2⟩)
  · exact Or.inr (Or.inl h)

instance : IsTrans (String × String) pairLe := by
  refine ⟨fun a b c hab hbc => ?_⟩
  rcases hab with h1 | ⟨e1, l1⟩
  · rcases hbc with h2 | ⟨e2, _⟩
    · exact Or.inl (lt_trans h1 h2)
    · exact Or.inl (e2 ▸ h1)
  · rcases hbc with h2 | ⟨e2, l2⟩
    · exact Or.inl (e1 ▸ h2)
    · exact Or.inr ⟨e1.trans e2, le_trans l1 l2⟩

instance : IsAntisymm (String × String) pairLe := by
  refine ⟨fun a b hab hba => ?_⟩
  rcases hab with h1 | ⟨e1, l1⟩
  · rcases hba with h2 | ⟨e2, _⟩
    · exact absurd h2 (lt_asymm h1)
    · rw [e2] at h1; exact absurd h1 (lt_irrefl _)
  · rcases hba with h2 | ⟨e2, l2⟩
    · rw [e1] at h2; exact absurd h2 (lt_irrefl _)
    · exact Prod.ext e1 (le_antisymm l1 l2)

/-- Model of frozenset(sorted(items)): the canonical sequence underlying the
frozenset is the sorted, deduplicated pair list. -/
def sortedEnvItems (env : List (String × String)) : List (String × String) :=
  (env.insertionSort pairLe).dedup

def reprPair (kv : String × String) : String :=
  "(" ++ kv.1 ++ ", " ++ kv.2 ++ ")"

/-- Rendering of the environment frozenset into the key f-string.  CPython
builds the set by inserting the sorted items in order, so the rendering is a
deterministic function of the canonical sequence; the model renders that
sequence directly. -/
def envFingerprint (env : List (String × String)) : String :=
  "frozenset([" ++ String.intercalate ", " ((sortedEnvItems env).map reprPair)
    ++ "])"

/-- Model of the composed cache key of compiler.py line 170. -/
def composeKey (sourceHash backendHash optionsHash : String)
    (env : List (String × String)) : String :=
  sourceHash ++ "-" ++ backendHash ++ "-" ++ optionsHash ++ "-"
    ++ envFingerprint env

/-! ## Cache manager and the compile driver

The external cache manager (runtime.cache) is consumed through put,
get_group and put_group.  Its state is a file store plus a group map; the
driver obtains a per-key manager through get_cache_manager(hash).  Each call
the driver makes is additionally recorded in an event trace. -/

/-- Contents of a cached file: a serialized stage artifact, or the JSON
metadata file (json.dumps and json.loads round-trip the mapping, so the
mapping itself is stored). -/
inductive CacheVal where
  | irArtifact (m : Module)
  | metaFile (md : List (String × String))
deriving DecidableEq

/-- State of one per-key cache manager: written files, and committed
group mappings (artifact name to stored path). -/
structure CacheState where
  files : List (String × CacheVal)
  groups : List (String × List (String × String))
deriving DecidableEq

def emptyCacheState : CacheState := ⟨[], []⟩

/-- Model of fn_cache_manager.put(data, filename): writes the file and
returns the stored path (the filename addresses the file within the
per-key directory). -/
def CacheState.put (c : CacheState) (data : CacheVal) (filename : String) :
    CacheState × String :=
  ({ c with files := insertEntry c.files filename data }, filename)

/-- Model of fn_cache_manager.get_group. -/
def CacheState.get_group (c : CacheState) (g : String) :
    Option (List (String × String)) :=
  lookupAssoc c.groups g

/-- Model of fn_cache_manager.put_group: the commit point. -/
def CacheState.put_group (c : CacheState) (g : String)
    (mapping : List (String × String)) : CacheState :=
  { c with groups := insertEntry c.groups g mapping }

/-- Reading a stored file back (Path(path).read_text plus json.loads for
metadata). -/
def CacheState.readFile (c : CacheState) (p : String) : Option CacheVal :=
  lookupAssoc c.files p

/-- The collection of per-key cache managers, indexed by the run hash. -/
abbrev GlobalCache := List (String × CacheState)

/-- Model of get_cache_manager(hash): the manager rooted at the key
directory (fresh and empty when nothing was ever stored there). -/
def get_cache_manager (gc : GlobalCache) (h : String) : CacheState :=
  (lookupAssoc gc h).getD emptyCacheState

def setManager (gc : GlobalCache) (h : String) (st : CacheState) :
    GlobalCache :=
  insertEntry gc h st

/-- Run metadata: the mutable mapping threaded through the stages, stored
with its JSON scalar values rendered as strings. -/
abbrev Metadata := List (String × String)

/-- A stage function from the backend stage dict: lowers a module, possibly
mutating the metadata mapping; none models the stage raising. -/
abbrev StageFn := Module → Metadata → Option (Module × Metadata)

/-- The backend descriptor (CUDABackend is external): its hash, its ordered
stage chain as added by add_stages, and make_launcher_stub. -/
structure Backend where
  hashStr : String
  stages : List (String × StageFn)
  make_launcher_stub : Source → Metadata → String

/-- Observable calls the driver performs during a run. -/
inductive Event where
  | makeIR
  | stageRun (ext : String)
  | putFile (filename : String)
  | putGroup (groupName : String)
deriving DecidableEq

/-- Model of Python list.index on the stage names (compiler.py line 195);
none models the ValueError when the extension is absent. -/
def listIndex (x : String) : List String → Option Nat
  | [] => none
  | a :: rest => if a = x then some 0 else (listIndex x rest).map (· + 1)

/-- Initial metadata of a run (compiler.py lines 183-190): the device type,
every options field, every environment variable, and - when a signature was
supplied - the folded argument positions. -/
def initMetadata (device_type : String) (o : CompilationOptions)
    (env : List (String × String)) (folded : Option (List Nat)) : Metadata :=
  let m := insertAll (insertEntry [] "device_type" device_type)
    (optionEntries o)
  let m := insertAll m env
  match folded with
  | some l => insertEntry m "ids_of_folded_args" (toString l)
  | none => m

/-- The stage loop of compiler.py lines 197-200: each remaining stage lowers
the current module (mutating the metadata), the produced artifact is put
into the cache under name.ext and recorded in the group mapping, and the
result feeds the next stage.  A raising stage aborts immediately. -/
def runStages (name : String) :
    List (String × StageFn) → Module → Metadata → CacheState →
    List (String × String) →
    Except String (Module × Metadata × List (String × String)) × CacheState
      × List Event
  | [], module, metadata, mgr, group =>
    (Except.ok (module, metadata, group), mgr, [])
  | (ext, compile_ir) :: rest, module, metadata, mgr, group =>
    match compile_ir module metadata with
    | none => (Except.error ext, mgr, [Event.stageRun ext])
    | some (next_module, metadata') =>
      let fname := name ++ "." ++ ext
      let pr := mgr.put (CacheVal.irArtifact next_module) fname
      let group' := insertEntry group fname pr.2
      match runStages name rest next_module metadata' pr.1 group' with
      | (res, mgr', evs) =>
        (res, mgr', Event.stageRun ext :: Event.putFile fname :: evs)

/-- The handle returned by compile: the launcher stub path, the metadata
path inside the cache, and the metadata mapping the CompiledKernel
constructor loads back from it. -/
structure CompiledKernelInfo where
  so_path : String
  metadata_path : String
  metadata : Metadata
deriving DecidableEq

inductive CompileError where
  | malformedIR (e : MalformedIRError)
  | extNotInStages
  | cacheReadFailure
  | stageFailure (ext : String)
deriving DecidableEq

/-- The composed run key of line 170, digested. -/
def runKeyHash (src : Source) (backend : Backend)
    (options : CompilationOptions) (env : List (String × String)) : String :=
  md5Hex (composeKey src.hashStr backend.hashStr options.hashStr env)

/-- The cache probe of lines 172-175: look the group up, defaulting to an
empty mapping, then fetch the metadata entry. -/
def probeCache (gc : GlobalCache) (hashv groupName : String) : Option String :=
  lookupAssoc (((get_cache_manager gc hashv).get_group groupName).getD [])
    groupName

/-- Model of compile (compiler.py lines 156-206), from the point where the
source descriptor exists: refine the options, compose the key, probe the
cache; on a hit read the metadata back and build the handle directly; on a
miss seed the metadata, locate the first stage by the source extension, emit
the initial IR, run the remaining stages, write the metadata file, commit
the group, and build the handle. -/
def compile (src : Source) (backend : Backend)
    (options0 : CompilationOptions) (device_type : String)
    (folded : Option (List Nat)) (env : List (String × String))
    (gc : GlobalCache) :
    Except CompileError CompiledKernelInfo × GlobalCache × List Event :=
  match Source.update_options src options0 with
  | .error e => (Except.error (CompileError.malformedIR e), gc, [])
  | .ok options =>
    let hashv := runKeyHash src backend options env
    let fn_cache_manager := get_cache_manager gc hashv
    let metadata_filename := src.name ++ ".json"
    let cache_group :=
      (fn_cache_manager.get_group metadata_filename).getD []
    match lookupAssoc cache_group metadata_filename with
    | some metadata_path =>
      match fn_cache_manager.readFile metadata_path with
      | some (CacheVal.metaFile metadata) =>
        (Except.ok ⟨backend.make_launcher_stub src metadata, metadata_path,
          metadata⟩, gc, [])
      | _ => (Except.error CompileError.cacheReadFailure, gc, [])
    | none =>
      let metadata := initMetadata device_type options env folded
      match listIndex src.ext (backend.stages.map Prod.fst) with
      | none => (Except.error CompileError.extNotInStages, gc, [])
      | some first_stage =>
        let module := src.make_ir
        match runStages src.name (backend.stages.drop first_stage) module
          metadata fn_cache_manager cache_group with
        | (Except.error ext, mgr', evs) =>
          (Except.error (CompileError.stageFailure ext),
            setManager gc hashv mgr', Event.makeIR :: evs)
        | (Except.ok (_, metadata', group'), mgr', evs) =>
          let pr := mgr'.put (CacheVal.metaFile metadata') metadata_filename
          let group'' := insertEntry group' metadata_filename pr.2
          let mgr'' := pr.1.put_group metadata_filename group''
          let so_path := backend.make_launcher_stub src metadata'
          (Except.ok ⟨so_path, pr.2, metadata'⟩, setManager gc hashv mgr'',
            Event.makeIR :: evs
              ++ [Event.putFile metadata_filename,
                  Event.putGroup metadata_filename])

/-! ## The compiled kernel handle and lazy binding

CompiledKernel._init_handles (compiler.py lines 241-251): an early return
when the module is already bound, otherwise a device query, the shared
memory capacity check, and the binary load that fills the module, function,
register and spill fields. -/

/-- Device-resource fields of a CompiledKernel, plus the metadata attributes
the binding reads (name, kernel binary, shared-memory requirement). -/
structure KernelHandleState where
  name : String
  kernel : String
  shared : Nat
  module : Option Nat
  function : Option Nat
  n_regs : Option Nat
  n_spills : Option Nat
deriving DecidableEq

/-- The external driver collaborator: the current device, its property
query, and binary loading (returning module, function, n_regs, n_spills). -/
structure DriverModel where
  current_device : Nat
  max_shared_mem : Nat → Nat
  load_binary : String → String → Nat → Nat → Nat × Nat × Nat × Nat

/-- The OutOfResources error from runtime.autotuner, as raised on line 248
with (self.shared, max_shared, "shared memory"). -/
structure OutOfResources where
  required : Nat
  limit : Nat
  resource : String
deriving DecidableEq

/-- Calls the binding performs against the driver collaborator. -/
inductive DevEvent where
  | queryDevice
  | queryProperties (device : Nat)
  | loadBinary (device : Nat)
deriving DecidableEq

/-- Model of CompiledKernel._init_handles. -/
def _init_handles (drv : DriverModel) (st : KernelHandleState) :
    Except OutOfResources KernelHandleState × List DevEvent :=
  if st.module.isSome then (Except.ok st, [])
  else
    let device := drv.current_device
    let max_shared := drv.max_shared_mem device
    if st.shared > max_shared then
      (Except.error ⟨st.shared, max_shared, "shared memory"⟩,
        [DevEvent.queryDevice, DevEvent.queryProperties device])
    else
      let r := drv.load_binary st.name st.kernel st.shared device
      (Except.ok ⟨st.name, st.kernel, st.shared, some r.1, some r.2.1,
          some r.2.2.1, some r.2.2.2⟩,
        [DevEvent.queryDevice, DevEvent.queryProperties device,
          DevEvent.loadBinary device])

/-- Handle state after an _init_handles call: a raised exception propagates
before any field assignment, so a failed call leaves the handle unchanged. -/
def stateAfterInit (drv : DriverModel) (st : KernelHandleState) :
    KernelHandleState :=
  match (_init_handles drv st).1 with
  | .ok st' => st'
  | .error _ => st

/-! ## Spec-side description of the stage chain (section 4.4 of the spec)

chainStages follows the spec words for the Pipeline Runner: for each
remaining stage in order, invoke the lowering on the current module and
metadata, record the produced artifact under its format name, and feed the
result to the next stage.  The refinement lemmas below relate the driver
loop runStages to this description. -/

/-- Spec-side stage chain: the list of (format, artifact) pairs produced in
order, with the final module and metadata; a raising stage yields its
format name as the error. -/
def chainStages :
    List (String × StageFn) → Module → Metadata →
    Except String (List (String × Module) × Module × Metadata)
  | [], module, metadata => Except.ok ([], module, metadata)
  | (ext, compile_ir) :: rest, module, metadata =>
    match compile_ir module metadata with
    | none => Except.error ext
    | some (next_module, metadata') =>
      match chainStages rest next_module metadata' with
      | .error e => Except.error e
      | .ok (arts, m_f, md_f) =>
        Except.ok ((ext, next_module) :: arts, m_f, md_f)

/-- Expected event interleaving of a run over the given artifacts: each
stage invocation immediately followed by the put of its artifact. -/
def artsTrace (name : String) : List (String × Module) → List Event
  | [] => []
  | a :: rest =>
    Event.stageRun a.1 :: Event.putFile (name ++ "." ++ a.1)
      :: artsTrace name rest

/-- File store after writing the artifacts of a run in order. -/
def writeArts (files : List (String × CacheVal)) (name : String) :
    List (String × Module) → List (String × CacheVal)
  | [] => files
  | a :: rest =>
    writeArts (insertEntry files (name ++ "." ++ a.1) (CacheVal.irArtifact a.2))
      name rest

/-- Group mapping after recording the artifacts of a run in order. -/
def groupArts (group : List (String × String)) (name : String) :
    List (String × Module) → List (String × String)
  | [] => group
  | a :: rest =>
    groupArts (insertEntry group (name ++ "." ++ a.1) (name ++ "." ++ a.1))
      name rest

theorem runStages_of_chain_ok (name : String) :
    ∀ (stages : List (String × StageFn)) (m : Module) (md : Metadata)
      (mgr : CacheState) (grp : List (String × String))
      (arts : List (String × Module)) (m_f : Module) (md_f : Metadata),
      chainStages stages m md = .ok (arts, m_f, md_f) →
      runStages name stages m md mgr grp =
        (Except.ok (m_f, md_f, groupArts grp name arts),
          ⟨writeArts mgr.files name arts, mgr.groups⟩,
          artsTrace name arts) := by
  intro stages
  induction stages with
  | nil =>
    intro m md mgr grp arts m_f md_f h
    simp only [chainStages, Except.ok.injEq, Prod.mk.injEq] at h
    rw [← h.1, ← h.2.1, ← h.2.2]
    simp [runStages, writeArts, groupArts, artsTrace]
  | cons stage rest ih =>
    intro m md mgr grp arts m_f md_f h
    obtain ⟨ext, f⟩ := stage
    cases hf : f m md with
    | none => simp [chainStages, hf] at h
    | some pr =>
      obtain ⟨m', md'⟩ := pr
      cases hc : chainStages rest m' md' with
      | error e => simp [chainStages, hf, hc] at h
      | ok triple =>
        obtain ⟨arts', mf', mdf'⟩ := triple
        simp only [chainStages, hf, hc, Except.ok.injEq, Prod.mk.injEq] at h
        rw [← h.1, ← h.2.1, ← h.2.2]
        simp only [runStages, hf, CacheState.put]
        rw [ih m' md' _ _ arts' mf' mdf' hc]
        simp [writeArts, groupArts, artsTrace]

theorem runStages_of_chain_err (name : String) :
    ∀ (stages : List (String × StageFn)) (m : Module) (md : Metadata)
      (mgr : CacheState) (grp : List (String × String)) (e : String),
      chainStages stages m md = .error e →
      (runStages name stages m md mgr grp).1 = .error e ∧
      (runStages name stages m md mgr grp).2.1.groups = mgr.groups ∧
      ∀ g, Event.putGroup g ∉ (runStages name stages m md mgr grp).2.2 := by
  intro stages
  induction stages with
  | nil =>
    intro m md mgr grp e h
    simp [chainStages] at h
  | cons stage rest ih =>
    intro m md mgr grp e h
    obtain ⟨ext, f⟩ := stage
    cases hf : f m md with
    | none =>
      simp only [chainStages, hf, Except.error.injEq] at h
      rw [← h]
      refine ⟨by simp [runStages, hf], by simp [runStages, hf], ?_⟩
      intro g
      simp [runStages, hf]
    | some pr =>
      obtain ⟨m', md'⟩ := pr
      cases hc : chainStages rest m' md' with
      | ok triple =>
        obtain ⟨arts', mf', mdf'⟩ := triple
        simp [chainStages, hf, hc] at h
      | error e' =>
        simp only [chainStages, hf, hc, Except.error.injEq] at h
        rw [← h]
        obtain ⟨h1, h2, h3⟩ := ih m' md'
          (⟨insertEntry mgr.files (name ++ "." ++ ext)
              (CacheVal.irArtifact m'), mgr.groups⟩)
          (insertEntry grp (name ++ "." ++ ext) (name ++ "." ++ ext)) e' hc
        simp only [runStages, hf, CacheState.put] at h1 h2 h3 ⊢
        rcases hrun : runStages name rest m' md'
          (⟨insertEntry mgr.files (name ++ "." ++ ext)
              (CacheVal.irArtifact m'), mgr.groups⟩)
          (insertEntry grp (name ++ "." ++ ext) (name ++ "." ++ ext))
          with ⟨res, mgr', evs⟩
        rw [hrun] at h1 h2 h3
        refine ⟨h1, h2, ?_⟩
        intro g hmem
        simp only [List.mem_cons] at hmem
        rcases hmem with h' | h' | h'
        · exact Event.noConfusion h'
        · exact Event.noConfusion h'
        · exact h3 g h'

/-- A successful spec-side chain runs every given stage, in order. -/
theorem chainStages_ok_exts :
    ∀ (stages : List (String × StageFn)) (m : Module) (md : Metadata)
      (arts : List (String × Module)) (m_f : Module) (md_f : Metadata),
      chainStages stages m md = .ok (arts, m_f, md_f) →
      arts.map Prod.fst = stages.map Prod.fst := by
  intro stages
  induction stages with
  | nil =>
    intro m md arts m_f md_f h
    simp only [chainStages, Except.ok.injEq, Prod.mk.injEq] at h
    rw [← h.1]
    rfl
  | cons stage rest ih =>
    intro m md arts m_f md_f h
    obtain ⟨ext, f⟩ := stage
    cases hf : f m md with
    | none => simp [chainStages, hf] at h
    | some pr =>
      obtain ⟨m', md'⟩ := pr
      cases hc : chainStages rest m' md' with
      | error e => simp [chainStages, hf, hc] at h
      | ok triple =>
        obtain ⟨arts', mf', mdf'⟩ := triple
        simp only [chainStages, hf, hc, Except.ok.injEq, Prod.mk.injEq] at h
        rw [← h.1]
        simpa using ih m' md' arts' mf' mdf' hc

/-- When every stage of the chain preserves a metadata key, the final
metadata agrees with the seed on that key. -/
theorem chainStages_preserves_key (key : String) :
    ∀ (stages : List (String × StageFn)) (m : Module) (md : Metadata)
      (arts : List (String × Module)) (m_f : Module) (md_f : Metadata),
      (∀ st ∈ stages, ∀ m1 md1 r, st.2 m1 md1 = some r →
        lookupAssoc r.2 key = lookupAssoc md1 key) →
      chainStages stages m md = .ok (arts, m_f, md_f) →
      lookupAssoc md_f key = lookupAssoc md key := by
  intro stages
  induction stages with
  | nil =>
    intro m md arts m_f md_f _ h
    simp only [chainStages, Except.ok.injEq, Prod.mk.injEq] at h
    rw [← h.2.2]
  | cons stage rest ih =>
    intro m md arts m_f md_f hpres h
    obtain ⟨ext, f⟩ := stage
    cases hf : f m md with
    | none => simp [chainStages, hf] at h
    | some pr =>
      obtain ⟨m', md'⟩ := pr
      cases hc : chainStages rest m' md' with
      | error e => simp [chainStages, hf, hc] at h
      | ok triple =>
        obtain ⟨arts', mf', mdf'⟩ := triple
        simp only [chainStages, hf, hc, Except.ok.injEq, Prod.mk.injEq] at h
        rw [← h.2.2]
        have h1 : lookupAssoc md' key = lookupAssoc md key :=
          hpres (ext, f) (by simp) m md (m', md') hf
        have h2 := ih m' md' arts' mf' mdf'
          (fun st hst => hpres st (List.mem_cons_of_mem _ hst)) hc
        rw [h2, h1]

/-- Python list.index finds the first occurrence. -/
theorem listIndex_spec (x : String) :
    ∀ (l : List String) (k : Nat), listIndex x l = some k →
      l.get? k = some x ∧ ∀ j, j < k → l.get? j ≠ some x := by
  intro l
  induction l with
  | nil => intro k h; simp [listIndex] at h
  | cons a rest ih =>
    intro k h
    simp only [listIndex] at h
    by_cases ha : a = x
    · rw [if_pos ha] at h
      cases h
      exact ⟨by simp [ha], fun j hj => absurd hj (by omega)⟩
    · rw [if_neg ha] at h
      cases hr : listIndex x rest with
      | none => rw [hr] at h; simp at h
      | some k' =>
        rw [hr] at h
        have hk : k' + 1 = k := by simpa using h
        rw [← hk]
        obtain ⟨h1, h2⟩ := ih k' hr
        refine ⟨by simpa using h1, fun j hj => ?_⟩
        cases j with
        | zero => simpa using ha
        | succ j' =>
          have := h2 j' (by omega)
          simpa using this

theorem get_cache_manager_setManager_self (gc : GlobalCache) (h : String)
    (st : CacheState) : get_cache_manager (setManager gc h st) h = st := by
  unfold get_cache_manager setManager
  rw [lookupAssoc_insertEntry_self]
  rfl

/-- Full behaviour of compile on a cache hit: the stored metadata is read
back, the stub is built, the handle is returned, and neither the cache nor
the event trace changes. -/
theorem compile_hit_eq (src : Source) (backend : Backend)
    (options0 options : CompilationOptions) (device_type : String)
    (folded : Option (List Nat)) (env : List (String × String))
    (gc : GlobalCache) (p : String) (m : Metadata)
    (hup : Source.update_options src options0 = .ok options)
    (hp : probeCache gc (runKeyHash src backend options env)
      (src.name ++ ".json") = some p)
    (hr : (get_cache_manager gc (runKeyHash src backend options env)).readFile
      p = some (CacheVal.metaFile m)) :
    compile src backend options0 device_type folded env gc =
      (Except.ok ⟨backend.make_launcher_stub src m, p, m⟩, gc, []) := by
  have hp' : lookupAssoc (((get_cache_manager gc
      (runKeyHash src backend options env)).get_group
      (src.name ++ ".json")).getD []) (src.name ++ ".json") = some p := hp
  simp only [compile, hup]
  rw [hp']
  simp only [hr]

/-- Full behaviour of compile on a cache miss whose stages all succeed:
every artifact is written, the metadata file is written, the group is
committed, and the events are the expected interleaving. -/
theorem compile_miss_ok_eq (src : Source) (backend : Backend)
    (options0 options : CompilationOptions) (device_type : String)
    (folded : Option (List Nat)) (env : List (String × String))
    (gc : GlobalCache) (k : Nat) (arts : List (String × Module))
    (m_f : Module) (md_f : Metadata)
    (hup : Source.update_options src options0 = .ok options)
    (hmiss : probeCache gc (runKeyHash src backend options env)
      (src.name ++ ".json") = none)
    (hidx : listIndex src.ext (backend.stages.map Prod.fst) = some k)
    (hchain : chainStages (backend.stages.drop k) src.make_ir
      (initMetadata device_type options env folded) = .ok (arts, m_f, md_f)) :
    compile src backend options0 device_type folded env gc =
      (Except.ok ⟨backend.make_launcher_stub src md_f, src.name ++ ".json",
          md_f⟩,
        setManager gc (runKeyHash src backend options env)
          ⟨insertEntry
              (writeArts (get_cache_manager gc
                (runKeyHash src backend options env)).files src.name arts)
              (src.name ++ ".json") (CacheVal.metaFile md_f),
            insertEntry (get_cache_manager gc
                (runKeyHash src backend options env)).groups
              (src.name ++ ".json")
              (insertEntry
                (groupArts (((get_cache_manager gc
                    (runKeyHash src backend options env)).get_group
                    (src.name ++ ".json")).getD []) src.name arts)
                (src.name ++ ".json") (src.name ++ ".json"))⟩,
        Event.makeIR :: artsTrace src.name arts
          ++ [Event.putFile (src.name ++ ".json"),
              Event.putGroup (src.name ++ ".json")]) := by
  have hmiss' : lookupAssoc (((get_cache_manager gc
      (runKeyHash src backend options env)).get_group
      (src.name ++ ".json")).getD []) (src.name ++ ".json") = none := hmiss
  simp only [compile, hup]
  rw [hmiss']
  simp only [hidx]
  rw [runStages_of_chain_ok src.name _ _ _ _ _ _ _ _ hchain]
  simp [CacheState.put, CacheState.put_group]

/-- Behaviour of compile on a cache miss where some stage raises: the run
fails with that stage's name, no group write occurs, and a subsequent probe
of the same key still misses. -/
theorem compile_miss_err_parts (src : Source) (backend : Backend)
    (options0 options : CompilationOptions) (device_type : String)
    (folded : Option (List Nat)) (env : List (String × String))
    (gc : GlobalCache) (k : Nat) (e : String)
    (hup : Source.update_options src options0 = .ok options)
    (hmiss : probeCache gc (runKeyHash src backend options env)
      (src.name ++ ".json") = none)
    (hidx : listIndex src.ext (backend.stages.map Prod.fst) = some k)
    (hchain : chainStages (backend.stages.drop k) src.make_ir
      (initMetadata device_type options env folded) = .error e) :
    (compile src backend options0 device_type folded env gc).1 =
      .error (CompileError.stageFailure e) ∧
    (∀ g, Event.putGroup g ∉
      (compile src backend options0 device_type folded env gc).2.2) ∧
    probeCache (compile src backend options0 device_type folded env gc).2.1
      (runKeyHash src backend options env) (src.name ++ ".json") = none := by
  have hmiss' : lookupAssoc (((get_cache_manager gc
      (runKeyHash src backend options env)).get_group
      (src.name ++ ".json")).getD []) (src.name ++ ".json") = none := hmiss
  obtain ⟨h1, h2, h3⟩ := runStages_of_chain_err src.name
    (backend.stages.drop k) src.make_ir
    (initMetadata device_type options env folded)
    (get_cache_manager gc (runKeyHash src backend options env))
    (((get_cache_manager gc (runKeyHash src backend options env)).get_group
      (src.name ++ ".json")).getD []) e hchain
  rcases hrun : runStages src.name (backend.stages.drop k) src.make_ir
    (initMetadata device_type options env folded)
    (get_cache_manager gc (runKeyHash src backend options env))
    (((get_cache_manager gc (runKeyHash src backend options env)).get_group
      (src.name ++ ".json")).getD []) with ⟨res, mgr', evs⟩
  rw [hrun] at h1 h2 h3
  simp only at h1 h2 h3
  subst h1
  simp only [compile, hup]
  rw [hmiss']
  simp only [hidx, hrun]
  refine ⟨by trivial, ?_, ?_⟩
  · intro g hmem
    simp only [List.mem_cons] at hmem
    rcases hmem with h' | h'
    · exact Event.noConfusion h'
    · exact h3 g h'
  · show probeCache (setManager gc (runKeyHash src backend options env) mgr')
      (runKeyHash src backend options env) (src.name ++ ".json") = none
    unfold probeCache
    rw [get_cache_manager_setManager_self]
    unfold CacheState.get_group
    rw [h2]
    exact hmiss'

/-- The initial metadata binds num_warps to the refined options value
whenever neither the remaining options fields nor the environment shadow
that key. -/
theorem initMetadata_num_warps (device_type : String)
    (o : CompilationOptions) (env : List (String × String))
    (folded : Option (List Nat))
    (hf : "num_warps" ∉ o.fields.map Prod.fst)
    (he : "num_warps" ∉ env.map Prod.fst) :
    lookupAssoc (initMetadata device_type o env folded) "num_warps" =
      some (toString o.num_warps) := by
  unfold initMetadata
  have h1 : lookupAssoc (insertAll (insertEntry [] "device_type" device_type)
      (optionEntries o)) "num_warps" = some (toString o.num_warps) := by
    show lookupAssoc (insertAll (insertEntry
      (insertEntry [] "device_type" device_type) "num_warps"
      (toString o.num_warps)) o.fields) "num_warps" = _
    rw [lookupAssoc_insertAll_not_mem _ _ _ hf, lookupAssoc_insertEntry_self]
  cases folded with
  | none => rw [lookupAssoc_insertAll_not_mem _ _ _ he, h1]
  | some l =>
    rw [lookupAssoc_insertEntry_ne _ _ _ _ (by decide),
      lookupAssoc_insertAll_not_mem _ _ _ he, h1]

/-! ## Claim theorems -/

/-- C1: for every two compile requests with identical source, target,
options and environment the composed cache key is identical; the
environment snapshot enters the key as a sorted set of key/value pairs, so
two environments holding the same pairs in any enumeration order yield the
same key string. -/
theorem composed_key_env_order_independent (s b o : String)
    (e1 e2 : List (String × String)) (h : e1.Perm e2) :
    composeKey s b o e1 = composeKey s b o e2 := by
  have hperm : (e1.insertionSort pairLe).Perm (e2.insertionSort pairLe) :=
    ((List.perm_insertionSort pairLe e1).trans h).trans
      (List.perm_insertionSort pairLe e2).symm
  have hs : e1.insertionSort pairLe = e2.insertionSort pairLe :=
    List.eq_of_perm_of_sorted hperm
      (List.sorted_insertionSort pairLe e1)
      (List.sorted_insertionSort pairLe e2)
  unfold composeKey envFingerprint sortedEnvItems
  rw [hs]

theorem composed_key_env_order_independent_witness :
    composeKey "srchash" "bkhash" "opthash" [("B", "2"), ("A", "1")] =
      composeKey "srchash" "bkhash" "opthash" [("A", "1"), ("B", "2")] :=
  composed_key_env_order_independent "srchash" "bkhash" "opthash" _ _
    (List.Perm.swap ("A", "1") ("B", "2") [])

/-- C10: refining the options is a no-op for every function-based source
and for every IR-text source whose extension is not ttgir, and even a ttgir
text source only ever touches the num_warps field (every other options
field is preserved). -/
theorem update_options_noop_frame :
    (∀ (n h : String) (m : Module) (o : CompilationOptions),
      Source.update_options (Source.ast n h m) o = .ok o) ∧
    (∀ (s : Source) (o : CompilationOptions), s.ext ≠ "ttgir" →
      Source.update_options s o = .ok o) ∧
    (∀ (s : Source) (o o' : CompilationOptions),
      Source.update_options s o = .ok o' → o'.fields = o.fields) := by
  refine ⟨fun n h m o => rfl, ?_, ?_⟩
  · intro s o hext
    cases s with
    | ast n h m => rfl
    | ir path text nm m =>
      simp only [Source.ext] at hext
      simp [Source.update_options, hext]
  · intro s o o' h
    cases s with
    | ast n hh m =>
      simp only [Source.update_options, Except.ok.injEq] at h
      rw [← h]
    | ir path text nm m =>
      by_cases hext : pathSuffix path = "ttgir"
      · simp only [Source.update_options, hext, if_pos] at h
        cases hg : _get_num_warps_from_ir_str text with
        | ok nv =>
          rw [hg] at h
          simp only [Except.ok.injEq] at h
          rw [← h]
        | error e =>
          rw [hg] at h
          exact absurd h (by simp)
      · simp only [Source.update_options] at h
        rw [if_neg hext] at h
        simp only [Except.ok.injEq] at h
        rw [← h]

theorem update_options_noop_frame_witness :
    Source.update_options (Source.ast "kern" "h0" 0)
      ⟨4, [("num_stages", "3")]⟩ = .ok ⟨4, [("num_stages", "3")]⟩ ∧
    Source.update_options (Source.ir "kern.ptx" "text" "kern" 0)
      ⟨4, [("num_stages", "3")]⟩ = .ok ⟨4, [("num_stages", "3")]⟩ :=
  ⟨update_options_noop_frame.1 "kern" "h0" 0 ⟨4, [("num_stages", "3")]⟩,
    update_options_noop_frame.2.1 (Source.ir "kern.ptx" "text" "kern" 0)
      ⟨4, [("num_stages", "3")]⟩ (by decide)⟩

/-- IR text used to refute C5 as stated: the warp-count attribute occurs
exactly once, but the warp-group-count attribute occurs twice. -/
def c5IRText : String :=
  "\"triton_gpu.num-warps\" = 4 : i32 \"triton_gpu.num-warp-groups-per-cta\" = 2 : i32 \"triton_gpu.num-warp-groups-per-cta\" = 2 : i32"

set_option maxRecDepth 8000 in
/-- C5 counterexample: a ttgir text whose warp-count attribute occurs
exactly once can still fail refinement, because the second assert of
_get_num_warps_from_ir_str rejects a duplicated warp-group-count attribute;
and a non-ttgir IR-text source whose text contains the warp-count attribute
zero times does not fail at all (refinement is a no-op there).  Both halves
refute the claim as stated over every IR-text source. -/
theorem refine_single_warp_attr_can_fail :
    ((reFindallNumWarps c5IRText).length = 1 ∧
      Source.update_options (Source.ir "k.ttgir" c5IRText "k" 0) ⟨4, []⟩ =
        .error MalformedIRError.numWarpGroupsCount) ∧
    (reFindallNumWarps "ptx body" = [] ∧
      Source.update_options (Source.ir "k.ptx" "ptx body" "k" 0) ⟨4, []⟩ =
        .ok ⟨4, []⟩) := by
  refine ⟨⟨rfl, rfl⟩, rfl, rfl⟩

/-- C5 (amended): for a ttgir text source, refinement fails with a
MalformedIRError when the warp-count attribute occurs zero times or more
than once; when it occurs exactly once, refinement succeeds if the
warp-group-count attribute occurs at most once - extracting the value,
multiplied by the group count when one is present - and fails with a
MalformedIRError when the warp-group-count attribute occurs more than
once. -/
theorem refine_warp_attr_characterization (p t nm : String) (m : Module)
    (o : CompilationOptions) (hext : pathSuffix p = "ttgir") :
    ((reFindallNumWarps t).length ≠ 1 →
      Source.update_options (Source.ir p t nm m) o =
        .error MalformedIRError.numWarpsCount) ∧
    (∀ n, reFindallNumWarps t = [n] →
      (reFindallNumWarpGroups t = [] →
        Source.update_options (Source.ir p t nm m) o = .ok ⟨n, o.fields⟩) ∧
      (∀ g, reFindallNumWarpGroups t = [g] →
        Source.update_options (Source.ir p t nm m) o =
          .ok ⟨n * g, o.fields⟩) ∧
      (2 ≤ (reFindallNumWarpGroups t).length →
        Source.update_options (Source.ir p t nm m) o =
          .error MalformedIRError.numWarpGroupsCount)) := by
  refine ⟨?_, ?_⟩
  · intro hne
    have hgw : _get_num_warps_from_ir_str t =
        .error MalformedIRError.numWarpsCount := by
      unfold _get_num_warps_from_ir_str
      rw [if_neg hne]
    simp [Source.update_options, hext, hgw]
  · intro n hnw
    refine ⟨?_, ?_, ?_⟩
    · intro hng
      have hgw : _get_num_warps_from_ir_str t = .ok n := by
        unfold _get_num_warps_from_ir_str
        rw [hnw, hng]
        simp
      simp [Source.update_options, hext, hgw]
    · intro g hng
      have hgw : _get_num_warps_from_ir_str t = .ok (n * g) := by
        unfold _get_num_warps_from_ir_str
        rw [hnw, hng]
        simp
      simp [Source.update_options, hext, hgw]
    · intro hg2
      have hcond : ¬(reFindallNumWarpGroups t = [] ∨
          (reFindallNumWarpGroups t).length = 1) := by
        rintro (h | h)
        · rw [h] at hg2; simp at hg2
        · omega
      have hgw : _get_num_warps_from_ir_str t =
          .error MalformedIRError.numWarpGroupsCount := by
        unfold _get_num_warps_from_ir_str
        rw [hnw]
        simp [hcond]
      simp [Source.update_options, hext, hgw]

theorem refine_warp_attr_characterization_witness :
    Source.update_options
      (Source.ir "k.ttgir" "\"triton_gpu.num-warps\" = 8 : i32" "k" 0)
      ⟨4, []⟩ = .ok ⟨8, []⟩ :=
  ((refine_warp_attr_characterization "k.ttgir"
      "\"triton_gpu.num-warps\" = 8 : i32" "k" 0 ⟨4, []⟩ rfl).2 8 rfl).1 rfl

/-- C7: binding an unbound handle fails with
OutOfResources(requested, available, "shared memory") exactly when the
declared shared-memory requirement exceeds the device's reported maximum;
otherwise it loads the binary and binds. -/
theorem init_handles_out_of_resources (drv : DriverModel)
    (st : KernelHandleState) (hun : st.module = none) :
    ((_init_handles drv st).1 =
      .error ⟨st.shared, drv.max_shared_mem drv.current_device,
        "shared memory"⟩ ↔
      st.shared > drv.max_shared_mem drv.current_device) ∧
    (st.shared ≤ drv.max_shared_mem drv.current_device →
      (_init_handles drv st).1 =
        .ok ⟨st.name, st.kernel, st.shared,
          some (drv.load_binary st.name st.kernel st.shared
            drv.current_device).1,
          some (drv.load_binary st.name st.kernel st.shared
            drv.current_device).2.1,
          some (drv.load_binary st.name st.kernel st.shared
            drv.current_device).2.2.1,
          some (drv.load_binary st.name st.kernel st.shared
            drv.current_device).2.2.2⟩) := by
  constructor
  · constructor
    · intro h
      by_contra hle
      simp only [_init_handles, hun, Option.isSome_none, Bool.false_eq_true,
        if_false, if_neg hle] at h
      exact absurd h (by simp)
    · intro hgt
      simp [_init_handles, hun, hgt]
  · intro hle
    have hgt : ¬st.shared > drv.max_shared_mem drv.current_device := by omega
    simp [_init_handles, hun, hgt]

theorem init_handles_out_of_resources_witness :
    ((_init_handles ⟨0, fun _ => 49152, fun _ _ _ _ => (1, 2, 3, 4)⟩
        ⟨"k", "bin", 70000, none, none, none, none⟩).1 =
      .error ⟨70000, 49152, "shared memory"⟩) ∧
    ((_init_handles ⟨0, fun _ => 49152, fun _ _ _ _ => (1, 2, 3, 4)⟩
        ⟨"k", "bin", 40000, none, none, none, none⟩).1 =
      .ok ⟨"k", "bin", 40000, some 1, some 2, some 3, some 4⟩) :=
  ⟨((init_handles_out_of_resources
      ⟨0, fun _ => 49152, fun _ _ _ _ => (1, 2, 3, 4)⟩
      ⟨"k", "bin", 70000, none, none, none, none⟩ rfl).1).mpr (by decide),
    (init_handles_out_of_resources
      ⟨0, fun _ => 49152, fun _ _ _ _ => (1, 2, 3, 4)⟩
      ⟨"k", "bin", 40000, none, none, none, none⟩ rfl).2 (by decide)⟩

/-- C8: after any successful bind, a further call to the binding operation
is a no-op: it performs no device query and no binary load (the event list
is empty) and returns the state unchanged - whatever driver it is handed. -/
theorem init_handles_idempotent (drv drv' : DriverModel)
    (st st' : KernelHandleState)
    (h : (_init_handles drv st).1 = .ok st') :
    _init_handles drv' st' = (.ok st', []) := by
  cases hm : st.module with
  | some v =>
    simp only [_init_handles, hm, Option.isSome_some, if_pos,
      Except.ok.injEq] at h
    rw [← h]
    simp [_init_handles, hm]
  | none =>
    by_cases hgt : st.shared > drv.max_shared_mem drv.current_device
    · simp [_init_handles, hm, hgt] at h
    · simp only [_init_handles, hm, Option.isSome_none, Bool.false_eq_true,
        if_false, if_neg hgt, Except.ok.injEq] at h
      rw [← h]
      simp [_init_handles]

theorem init_handles_idempotent_witness :
    _init_handles ⟨0, fun _ => 49152, fun _ _ _ _ => (1, 2, 3, 4)⟩
      ⟨"k", "bin", 40000, some 1, some 2, some 3, some 4⟩ =
      (.ok ⟨"k", "bin", 40000, some 1, some 2, some 3, some 4⟩, []) :=
  init_handles_idempotent
    ⟨0, fun _ => 49152, fun _ _ _ _ => (1, 2, 3, 4)⟩
    ⟨0, fun _ => 49152, fun _ _ _ _ => (1, 2, 3, 4)⟩
    ⟨"k", "bin", 40000, none, none, none, none⟩
    ⟨"k", "bin", 40000, some 1, some 2, some 3, some 4⟩ rfl

/-- Driver and handle on which binding fails: a 70000-byte requirement
against a 49152-byte device limit. -/
def oorDriver : DriverModel := ⟨0, fun _ => 49152, fun _ _ _ _ => (1, 2, 3, 4)⟩

def oorHandle : KernelHandleState := ⟨"k", "bin", 70000, none, none, none, none⟩

/-- C9 counterexample: after a binding attempt fails with OutOfResources,
the handle is left unchanged (unbound), and the binding attempt run by the
next access queries the device again - the attempt is repeated, refuting
the claim that the handle never re-executes it. -/
theorem failed_bind_repeats_attempt :
    (_init_handles oorDriver oorHandle).1 =
      .error ⟨70000, 49152, "shared memory"⟩ ∧
    stateAfterInit oorDriver oorHandle = oorHandle ∧
    (_init_handles oorDriver (stateAfterInit oorDriver oorHandle)).2 =
      [DevEvent.queryDevice, DevEvent.queryProperties 0] := by
  refine ⟨rfl, rfl, rfl⟩

/-- C9 (amended): a binding attempt that fails with OutOfResources leaves
the handle unbound and unchanged, so a later access re-executes the binding
attempt, querying the device properties again; the failure is not latched
by the handle. -/
theorem failed_bind_leaves_handle_retrying (drv : DriverModel)
    (st : KernelHandleState) (e : OutOfResources)
    (h : (_init_handles drv st).1 = .error e) :
    stateAfterInit drv st = st ∧
    (_init_handles drv (stateAfterInit drv st)).2 =
      [DevEvent.queryDevice, DevEvent.queryProperties drv.current_device] := by
  have hst : stateAfterInit drv st = st := by
    unfold stateAfterInit
    rw [h]
  refine ⟨hst, ?_⟩
  rw [hst]
  cases hm : st.module with
  | some v => simp [_init_handles, hm] at h
  | none =>
    by_cases hgt : st.shared > drv.max_shared_mem drv.current_device
    · simp [_init_handles, hm, hgt]
    · simp [_init_handles, hm, hgt] at h

theorem failed_bind_leaves_handle_retrying_witness :
    stateAfterInit oorDriver oorHandle = oorHandle ∧
    (_init_handles oorDriver (stateAfterInit oorDriver oorHandle)).2 =
      [DevEvent.queryDevice, DevEvent.queryProperties 0] :=
  failed_bind_leaves_handle_retrying oorDriver oorHandle
    ⟨70000, 49152, "shared memory"⟩ rfl

/-- The artifact trace contains stage runs and artifact puts only - never
a group write. -/
theorem artsTrace_no_putGroup (name : String) :
    ∀ (arts : List (String × Module)) (g : String),
      Event.putGroup g ∉ artsTrace name arts := by
  intro arts
  induction arts with
  | nil => intro g h; simp [artsTrace] at h
  | cons a rest ih =>
    intro g h
    simp only [artsTrace, List.mem_cons] at h
    rcases h with h | h | h
    · exact Event.noConfusion h
    · exact Event.noConfusion h
    · exact ih g h

/-- C3: when the cache group probe returns a mapping containing the metadata
file, compile runs no stage function and produces no initial IR (its event
trace is empty), reads the stored metadata verbatim, builds the launcher
stub, and returns the handle directly, leaving the cache untouched. -/
theorem cache_hit_suppresses_recompilation (src : Source) (backend : Backend)
    (options0 options : CompilationOptions) (device_type : String)
    (folded : Option (List Nat)) (env : List (String × String))
    (gc : GlobalCache) (p : String) (m : Metadata)
    (hup : Source.update_options src options0 = .ok options)
    (hp : probeCache gc (runKeyHash src backend options env)
      (src.name ++ ".json") = some p)
    (hr : (get_cache_manager gc (runKeyHash src backend options env)).readFile
      p = some (CacheVal.metaFile m)) :
    compile src backend options0 device_type folded env gc =
      (Except.ok ⟨backend.make_launcher_stub src m, p, m⟩, gc, []) :=
  compile_hit_eq src backend options0 options device_type folded env gc p m
    hup hp hr

/-- C2: on a cache miss, every intermediate artifact is written to the cache
individually, immediately after the stage that produced it, and the group
mapping is written exactly once, after the last stage (the event trace is
exactly the per-stage interleaving followed by the metadata put and the
single group write, and the interleaving itself contains no group write);
when a stage raises, the run aborts with that stage's failure, no group
write occurs, and a subsequent probe of the same key still misses. -/
theorem group_commit_point (src : Source) (backend : Backend)
    (options0 options : CompilationOptions) (device_type : String)
    (folded : Option (List Nat)) (env : List (String × String))
    (gc : GlobalCache) (k : Nat)
    (hup : Source.update_options src options0 = .ok options)
    (hmiss : probeCache gc (runKeyHash src backend options env)
      (src.name ++ ".json") = none)
    (hidx : listIndex src.ext (backend.stages.map Prod.fst) = some k) :
    (∀ e, chainStages (backend.stages.drop k) src.make_ir
        (initMetadata device_type options env folded) = .error e →
      (compile src backend options0 device_type folded env gc).1 =
        .error (CompileError.stageFailure e) ∧
      (∀ g, Event.putGroup g ∉
        (compile src backend options0 device_type folded env gc).2.2) ∧
      probeCache
        (compile src backend options0 device_type folded env gc).2.1
        (runKeyHash src backend options env) (src.name ++ ".json") = none) ∧
    (∀ arts m_f md_f, chainStages (backend.stages.drop k) src.make_ir
        (initMetadata device_type options env folded) =
        .ok (arts, m_f, md_f) →
      (compile src backend options0 device_type folded env gc).2.2 =
        Event.makeIR :: artsTrace src.name arts
          ++ [Event.putFile (src.name ++ ".json"),
              Event.putGroup (src.name ++ ".json")] ∧
      ∀ g, Event.putGroup g ∉ artsTrace src.name arts) := by
  constructor
  · intro e hchain
    exact compile_miss_err_parts src backend options0 options device_type
      folded env gc k e hup hmiss hidx hchain
  · intro arts m_f md_f hchain
    constructor
    · rw [compile_miss_ok_eq src backend options0 options device_type folded
        env gc k arts m_f md_f hup hmiss hidx hchain]
    · exact artsTrace_no_putGroup src.name arts

/-- C4: on a cache miss the pipeline locates the first position of the
source's native format tag in the backend's ordered stage chain, skips every
stage strictly before it, invokes each remaining stage in order (the run's
stage/put events are exactly the trace of the remaining stages, and the
artifact list covers exactly the remaining format names in order), caches
each produced artifact under sourceName.formatName in the file store, feeds
each result to the next stage, and returns the chained final metadata. -/
theorem pipeline_resume_structure (src : Source) (backend : Backend)
    (options0 options : CompilationOptions) (device_type : String)
    (folded : Option (List Nat)) (env : List (String × String))
    (gc : GlobalCache) (k : Nat) (arts : List (String × Module))
    (m_f : Module) (md_f : Metadata)
    (hup : Source.update_options src options0 = .ok options)
    (hmiss : probeCache gc (runKeyHash src backend options env)
      (src.name ++ ".json") = none)
    (hidx : listIndex src.ext (backend.stages.map Prod.fst) = some k)
    (hchain : chainStages (backend.stages.drop k) src.make_ir
      (initMetadata device_type options env folded) = .ok (arts, m_f, md_f)) :
    ((backend.stages.map Prod.fst).get? k = some src.ext ∧
      ∀ j, j < k → (backend.stages.map Prod.fst).get? j ≠ some src.ext) ∧
    arts.map Prod.fst = (backend.stages.drop k).map Prod.fst ∧
    (compile src backend options0 device_type folded env gc).2.2 =
      Event.makeIR :: artsTrace src.name arts
        ++ [Event.putFile (src.name ++ ".json"),
            Event.putGroup (src.name ++ ".json")] ∧
    (get_cache_manager
        (compile src backend options0 device_type folded env gc).2.1
        (runKeyHash src backend options env)).files =
      insertEntry
        (writeArts (get_cache_manager gc
          (runKeyHash src backend options env)).files src.name arts)
        (src.name ++ ".json") (CacheVal.metaFile md_f) ∧
    (compile src backend options0 device_type folded env gc).1 =
      .ok ⟨backend.make_launcher_stub src md_f, src.name ++ ".json",
        md_f⟩ := by
  have heq := compile_miss_ok_eq src backend options0 options device_type
    folded env gc k arts m_f md_f hup hmiss hidx hchain
  refine ⟨listIndex_spec src.ext _ k hidx,
    chainStages_ok_exts _ _ _ _ _ _ hchain, ?_, ?_, ?_⟩
  · rw [heq]
  · rw [heq, get_cache_manager_setManager_self]
  · rw [heq]

/-- C6: compiling a ttgir text source whose text embeds a warp-count
attribute of 8 makes refinement overwrite the options' warp-count field
with 8 before the key is composed and lowering continues; when the stages
do not themselves touch the num_warps entry and neither the remaining
options fields nor the environment shadow it, the final metadata - both the
one in the returned handle and the persisted metadata file - binds
num_warps to 8, and exactly the stages from the ttgir position onward
run. -/
theorem ttgir_resume_overwrites_num_warps (p t nm : String) (m0 : Module)
    (backend : Backend) (options0 : CompilationOptions)
    (device_type : String) (folded : Option (List Nat))
    (env : List (String × String)) (gc : GlobalCache) (k : Nat)
    (arts : List (String × Module)) (m_f : Module) (md_f : Metadata)
    (hext : pathSuffix p = "ttgir")
    (hnw : reFindallNumWarps t = [8])
    (hng : reFindallNumWarpGroups t = [])
    (hmiss : probeCache gc
      (runKeyHash (Source.ir p t nm m0) backend
        { options0 with num_warps := 8 } env) (nm ++ ".json") = none)
    (hidx : listIndex (pathSuffix p) (backend.stages.map Prod.fst) = some k)
    (hchain : chainStages (backend.stages.drop k) m0
      (initMetadata device_type { options0 with num_warps := 8 } env
        folded) = .ok (arts, m_f, md_f))
    (hpres : ∀ st ∈ backend.stages.drop k, ∀ m1 md1 r, st.2 m1 md1 = some r →
      lookupAssoc r.2 "num_warps" = lookupAssoc md1 "num_warps")
    (hf : "num_warps" ∉ options0.fields.map Prod.fst)
    (he : "num_warps" ∉ env.map Prod.fst) :
    Source.update_options (Source.ir p t nm m0) options0 =
      .ok { options0 with num_warps := 8 } ∧
    lookupAssoc md_f "num_warps" = some "8" ∧
    (compile (Source.ir p t nm m0) backend options0 device_type folded env
        gc).1 =
      .ok ⟨backend.make_launcher_stub (Source.ir p t nm m0) md_f,
        nm ++ ".json", md_f⟩ ∧
    (get_cache_manager (compile (Source.ir p t nm m0) backend options0
        device_type folded env gc).2.1
      (runKeyHash (Source.ir p t nm m0) backend
        { options0 with num_warps := 8 } env)).readFile (nm ++ ".json") =
      some (CacheVal.metaFile md_f) ∧
    arts.map Prod.fst = (backend.stages.drop k).map Prod.fst := by
  have hupd : Source.update_options (Source.ir p t nm m0) options0 =
      .ok { options0 with num_warps := 8 } := by
    have hgw : _get_num_warps_from_ir_str t = .ok 8 := by
      unfold _get_num_warps_from_ir_str
      rw [hnw, hng]
      simp
    simp [Source.update_options, hext, hgw]
  have hmd0 := initMetadata_num_warps device_type
    { options0 with num_warps := 8 } env folded hf he
  have hmdf : lookupAssoc md_f "num_warps" = some "8" := by
    rw [chainStages_preserves_key "num_warps" _ _ _ _ _ _ hpres hchain, hmd0]
    show some (toString (8 : Nat)) = some "8"
    decide
  have heq := compile_miss_ok_eq (Source.ir p t nm m0) backend options0
    { options0 with num_warps := 8 } device_type folded env gc k arts m_f
    md_f hupd hmiss hidx hchain
  refine ⟨hupd, hmdf, ?_, ?_, chainStages_ok_exts _ _ _ _ _ _ hchain⟩
  · rw [heq]
    rfl
  · rw [heq, get_cache_manager_setManager_self]
    exact lookupAssoc_insertEntry_self _ _ _

/-! ## Concrete fixtures for the compile-level witnesses -/

def stage_ttir : StageFn := fun m md => some (m + 1, md)

def stage_ttgir : StageFn := fun m md => some (m + 1, md)

def stage_ptx : StageFn := fun m md => some (m * 2, md)

def bk0 : Backend :=
  ⟨"BH", [("ttir", stage_ttir), ("ptx", stage_ptx)],
    fun src _ => "stub-" ++ src.name⟩

def bkFail : Backend :=
  ⟨"BH", [("ttir", fun _ _ => none)], fun src _ => "stub-" ++ src.name⟩

def bk6 : Backend :=
  ⟨"BH6", [("ttir", stage_ttir), ("ttgir", stage_ttgir), ("ptx", stage_ptx)],
    fun src _ => "stub-" ++ src.name⟩

def srcA : Source := Source.ast "kern" "AH" 7

def opts0 : CompilationOptions := ⟨4, [("num_stages", "3")]⟩

def env0 : List (String × String) := [("TRITON_X", "1")]

def mdStored : Metadata := [("device_type", "cuda80"), ("num_warps", "4")]

def hashA : String := runKeyHash srcA bk0 opts0 env0

def gcHit : GlobalCache :=
  [(hashA, ⟨[("kern.json", CacheVal.metaFile mdStored)],
    [("kern.json", [("kern.json", "kern.json")])]⟩)]

def tt8Text : String := "\"triton_gpu.num-warps\" = 8 : i32"

def src6 : Source := Source.ir "k.ttgir" tt8Text "kern" 5

theorem cache_hit_suppresses_recompilation_witness :
    compile srcA bk0 opts0 "cuda80" none env0 gcHit =
      (Except.ok ⟨bk0.make_launcher_stub srcA mdStored, "kern.json",
        mdStored⟩, gcHit, []) :=
  cache_hit_suppresses_recompilation srcA bk0 opts0 opts0 "cuda80" none env0
    gcHit "kern.json" mdStored rfl rfl rfl

theorem group_commit_point_witness :
    (compile srcA bkFail opts0 "cuda80" none env0 []).1 =
      .error (CompileError.stageFailure "ttir") ∧
    probeCache (compile srcA bkFail opts0 "cuda80" none env0 []).2.1
      (runKeyHash srcA bkFail opts0 env0) "kern.json" = none := by
  have h := (group_commit_point srcA bkFail opts0 opts0 "cuda80" none env0
    [] 0 rfl rfl rfl).1 "ttir" rfl
  exact ⟨h.1, h.2.2⟩

theorem pipeline_resume_structure_witness :
    (compile srcA bk0 opts0 "cuda80" none env0 []).2.2 =
      Event.makeIR :: artsTrace "kern" [("ttir", 8), ("ptx", 16)]
        ++ [Event.putFile "kern.json", Event.putGroup "kern.json"] ∧
    (compile srcA bk0 opts0 "cuda80" none env0 []).1 =
      .ok ⟨"stub-kern", "kern.json",
        initMetadata "cuda80" opts0 env0 none⟩ := by
  have h := pipeline_resume_structure srcA bk0 opts0 opts0 "cuda80" none
    env0 [] 0 [("ttir", 8), ("ptx", 16)] 16
    (initMetadata "cuda80" opts0 env0 none) rfl rfl rfl rfl
  exact ⟨h.2.2.1, h.2.2.2.2⟩

theorem ttgir_resume_overwrites_num_warps_witness :
    Source.update_options src6 opts0 = .ok ⟨8, [("num_stages", "3")]⟩ ∧
    lookupAssoc (initMetadata "cuda80" ⟨8, [("num_stages", "3")]⟩ env0 none)
      "num_warps" = some "8" := by
  have h := ttgir_resume_overwrites_num_warps "k.ttgir" tt8Text "kern" 5
    bk6 opts0 "cuda80" none env0 [] 1 [("ttgir", 6), ("ptx", 12)] 12
    (initMetadata "cuda80" ⟨8, [("num_stages", "3")]⟩ env0 none)
    rfl rfl rfl rfl rfl rfl
    (by
      intro st hst m1 md1 r hr
      simp only [bk6, List.drop, List.mem_cons, List.not_mem_nil,
        or_false] at hst
      rcases hst with h | h <;> subst h <;>
        · simp only [stage_ttgir, stage_ptx] at hr
          cases hr
          rfl)
    (by decide) (by decide)
  exact ⟨h.1, h.2.1⟩

end Triton
